import Mathlib

/-!
Verification of the MongoDB connection-cache module `src/lib/mongodb.ts`.

The module is a connection-memoization utility:

* At load time it reads `process.env.MONGO_URI` into `MONGODB_URI` and throws
  when the value is falsy (absent or the empty string).
* It keeps a process-wide `MongooseCache` record with fields `conn`
  (the resolved `Mongoose` handle or `null`) and `promise`
  (the in-flight connection promise or `null`), reusing a record already
  stored on the global object when the module is re-evaluated.
* `connectToDatabase()` returns the cached handle if present, otherwise
  starts a handshake via `mongoose.connect` when no promise exists, then
  awaits the shared promise and stores the resolved handle in `conn`.
* `getMongoNativeConnection()` returns `conn.connection` or `null`.

We embed the module shallowly.  Pure parts (module load, the native-handle
accessor) become Lean functions.  `connectToDatabase`, which has a single
`await` suspension point, is modelled by a small-step relation `Step` on a
system state `Sys` holding the cache, a store of promises, a handshake
counter and the states of the logical callers; the environment settles
promises nondeterministically.  Properties of the code are proved as
invariants over all interleavings reachable from the initial state.
-/

/-- The lower-level native driver connection object (`mongoose.Connection`).
Its internals are irrelevant to this module; we give it an identity tag. -/
structure Connection where
  id : Nat
  deriving DecidableEq, Repr

/-- A `Mongoose` client instance as returned by `mongoose.connect`.  It embeds
the native driver `Connection` in its `connection` field (used by
`getMongoNativeConnection`). -/
structure Mongoose where
  id : Nat
  connection : Connection
  deriving DecidableEq, Repr

/-- Rejection reasons of the handshake promise (network errors etc.). -/
abbrev Err := String

/-- The cache record `MongooseCache` of the source: `conn` is the resolved
reusable instance or `null`; `promise` is the in-flight connection promise or
`null`.  Promises are named by identifiers into the promise store of `Sys`. -/
structure MongooseCache where
  conn : Option Mongoose
  promise : Option Nat
  deriving DecidableEq, Repr

/-- The state resulting from a successful module evaluation: the validated
`MONGODB_URI` constant and the `cached` record (also stored back on the
global object, line 49 of the source). -/
structure ModuleState where
  MONGODB_URI : String
  cached : MongooseCache
  deriving DecidableEq, Repr

/-- JavaScript truthiness of a `string | undefined` value: `undefined` and
the empty string are falsy, every other string is truthy.  This is the test
performed by `if (!MONGODB_URI)` on line 10 of the source. -/
def jsTruthyString : Option String → Bool
  | none => false
  | some s => !(s = "")

/-- Module evaluation (lines 8-49 of the source).  Inputs: the value of
`process.env.MONGO_URI` and the `mongoose` cache record possibly already
stored on the global object.  The body reads the URI, throws when it is
falsy, otherwise takes over the existing global cache record or creates a
fresh empty one, and stores it back on the global object.  The result pairs
the module state with the global object's cache slot after line 49. -/
def moduleInit (mongoUri : Option String) (globalMongoose : Option MongooseCache) :
    Except Err (ModuleState × MongooseCache) :=
  if jsTruthyString mongoUri then
    let cached : MongooseCache := globalMongoose.getD { conn := none, promise := none }
    .ok ({ MONGODB_URI := mongoUri.getD "", cached := cached }, cached)
  else
    .error "Invalid configuration: MONGODB_URI environment variable is not set"

/-- `getMongoNativeConnection` (lines 88-94 of the source).  We thread the
cache record through explicitly so that the absence of mutation is a theorem
rather than a modelling assumption: the function returns its result together
with the cache record as it leaves it.  The body only reads `cached.conn`. -/
def getMongoNativeConnection (cached : MongooseCache) :
    Option Connection × MongooseCache :=
  match cached.conn with
  | none => (none, cached)
  | some conn => (some conn.connection, cached)

/-- Claim C3 -- If the required endpoint configuration value is absent from
the environment, module evaluation throws the configuration error
synchronously at load time, whatever the global cache slot holds; no module
state (hence no handle) is ever produced. -/
theorem moduleInit_absent_uri_throws (globalMongoose : Option MongooseCache) :
    moduleInit none globalMongoose =
      .error "Invalid configuration: MONGODB_URI environment variable is not set" ∧
    ∀ r, moduleInit none globalMongoose ≠ .ok r := by
  refine ⟨rfl, ?_⟩
  intro r h
  simp [moduleInit, jsTruthyString] at h

/-- Claim C10 -- Presence of the configuration value is checked by JavaScript
truthiness, so the empty string behaves exactly like an absent value: module
evaluation throws the same configuration error. -/
theorem moduleInit_empty_uri_throws (globalMongoose : Option MongooseCache) :
    moduleInit (some "") globalMongoose =
      .error "Invalid configuration: MONGODB_URI environment variable is not set" ∧
    moduleInit (some "") globalMongoose = moduleInit none globalMongoose := by
  exact ⟨rfl, rfl⟩

/-- Claim C5 -- `getMongoNativeConnection` returns `null` whenever the
`conn` field of the cache is unpopulated, and returns the native driver
handle embedded in the cached client whenever it is populated. -/
theorem getMongoNativeConnection_spec (cached : MongooseCache) :
    (cached.conn = none → (getMongoNativeConnection cached).1 = none) ∧
    (∀ m, cached.conn = some m →
      (getMongoNativeConnection cached).1 = some m.connection) := by
  constructor
  · intro h
    simp [getMongoNativeConnection, h]
  · intro m h
    simp [getMongoNativeConnection, h]

/-- Witness for C5 at concrete caches: an unpopulated cache yields `none`,
and a cache holding a client yields that client's embedded native handle. -/
theorem getMongoNativeConnection_spec_witness :
    (getMongoNativeConnection { conn := none, promise := none }).1 = none ∧
    (getMongoNativeConnection
        { conn := some { id := 7, connection := { id := 3 } }, promise := some 0 }).1 =
      some { id := 3 } :=
  ⟨(getMongoNativeConnection_spec { conn := none, promise := none }).1 rfl,
   (getMongoNativeConnection_spec
      { conn := some { id := 7, connection := { id := 3 } }, promise := some 0 }).2
      { id := 7, connection := { id := 3 } } rfl⟩

/-- Claim C8 -- `getMongoNativeConnection` has no side effects: for every
state of the cache record it leaves the record (both its `conn` and its
`promise` field) unchanged, and it touches no promise, so no I/O occurs. -/
theorem getMongoNativeConnection_pure (cached : MongooseCache) :
    (getMongoNativeConnection cached).2 = cached := by
  cases h : cached.conn <;> simp [getMongoNativeConnection, h]

/-- The outcome slot of a promise in the store: still pending, resolved with
a `Mongoose` instance, or rejected with an error.  `mongoose.connect(...)`
followed by `.then(m => m)` (lines 73-75) resolves with the same instance as
the underlying handshake promise, so the two collapse to one slot here. -/
inductive PromState where
  | pending : PromState
  | resolved : Mongoose → PromState
  | rejected : Err → PromState
  deriving DecidableEq, Repr

/-- The control state of one logical caller of `connectToDatabase()`:
not yet entered, suspended at the `await cached.promise` of line 79 on a
given promise, or finished with a result (`ok` return or thrown error). -/
inductive CallerState where
  | notStarted : CallerState
  | suspended : Nat → CallerState
  | done : Except Err Mongoose → CallerState
  deriving Repr

/-- The whole system: the shared cache record, the store of promises created
so far (a promise's identifier is its index), the number of invocations of
the handshake primitive `mongoose.connect`, and the caller states. -/
structure Sys where
  cache : MongooseCache
  promises : List PromState
  handshakes : Nat
  callers : List CallerState
  deriving Repr

/-- Cooperative small-step semantics of `connectToDatabase` (lines 59-82)
plus the environment settling promises.  JavaScript's single-threaded
event loop means the synchronous prefix of a call -- from entry through the
checks of `cached.conn` and `cached.promise`, the possible handshake start,
up to the suspension at `await` -- runs without interleaving, so it is one
step.  The steps are:

* `startCached`: entry with `cached.conn` populated; line 62 returns it at
  once, no I/O, nothing mutated.
* `startAwait`: entry with `cached.conn` empty and `cached.promise` set;
  the `if` of line 66 is skipped and line 79 suspends on that promise.
* `startConnect`: entry with both fields empty; line 73 invokes
  `mongoose.connect` (one more handshake, a fresh pending promise), stores
  the promise in `cached.promise`, and line 79 suspends on it.
* `settleResolve` / `settleReject`: the environment settles a pending
  promise; a settled promise never changes again.
* `resumeOk`: a caller suspended on a resolved promise resumes; line 79
  assigns the resolved instance to `cached.conn` and line 81 returns it.
* `resumeErr`: a caller suspended on a rejected promise resumes; the
  `await` rethrows, so the caller ends in error and `cached.conn` is not
  assigned. -/
inductive Step : Sys → Sys → Prop where
  | startCached (s : Sys) (i : Nat) (c : Mongoose)
      (hi : s.callers[i]? = some .notStarted)
      (hc : s.cache.conn = some c) :
      Step s { s with callers := s.callers.set i (.done (.ok c)) }
  | startAwait (s : Sys) (i : Nat) (p : Nat)
      (hi : s.callers[i]? = some .notStarted)
      (hc : s.cache.conn = none)
      (hp : s.cache.promise = some p) :
      Step s { s with callers := s.callers.set i (.suspended p) }
  | startConnect (s : Sys) (i : Nat)
      (hi : s.callers[i]? = some .notStarted)
      (hc : s.cache.conn = none)
      (hp : s.cache.promise = none) :
      Step s { cache := { conn := s.cache.conn, promise := some s.promises.length },
               promises := s.promises ++ [.pending], handshakes := s.handshakes + 1,
               callers := s.callers.set i (.suspended s.promises.length) }
  | settleResolve (s : Sys) (p : Nat) (m : Mongoose)
      (hp : s.promises[p]? = some .pending) :
      Step s { s with promises := s.promises.set p (.resolved m) }
  | settleReject (s : Sys) (p : Nat) (e : Err)
      (hp : s.promises[p]? = some .pending) :
      Step s { s with promises := s.promises.set p (.rejected e) }
  | resumeOk (s : Sys) (i p : Nat) (m : Mongoose)
      (hi : s.callers[i]? = some (.suspended p))
      (hp : s.promises[p]? = some (.resolved m)) :
      Step s { s with
                 cache := { conn := some m, promise := s.cache.promise },
                 callers := s.callers.set i (.done (.ok m)) }
  | resumeErr (s : Sys) (i p : Nat) (e : Err)
      (hi : s.callers[i]? = some (.suspended p))
      (hp : s.promises[p]? = some (.rejected e)) :
      Step s { s with callers := s.callers.set i (.done (.error e)) }

/-- The system at process start with `n` prospective callers: the cache
record is freshly created empty (lines 43-46 with nothing on the global
object yet), no promise exists, no handshake has run, nobody has called. -/
def initSys (n : Nat) : Sys :=
  { cache := { conn := none, promise := none },
    promises := [],
    handshakes := 0,
    callers := List.replicate n .notStarted }

/-- States reachable from `s₀` by any interleaving of caller and
environment steps. -/
inductive Reachable (s₀ : Sys) : Sys → Prop where
  | refl : Reachable s₀ s₀
  | tail {s s' : Sys} : Reachable s₀ s → Step s s' → Reachable s₀ s'

/-- Claim C4 -- A call to `connectToDatabase` entered while `cached.conn` is
populated returns that cached handle immediately: such a step exists, and any
step that moves caller `i` out of `notStarted` finishes it with the cached
handle while leaving the cache, the promise store (hence no I/O) and the
handshake count untouched. -/
theorem connectToDatabase_cached_no_io (s s' : Sys) (i : Nat) (c : Mongoose)
    (hi : s.callers[i]? = some .notStarted)
    (hc : s.cache.conn = some c) :
    Step s { s with callers := s.callers.set i (.done (.ok c)) } ∧
    (Step s s' → s'.callers[i]? ≠ some .notStarted →
      s'.callers[i]? = some (.done (.ok c)) ∧ s'.cache = s.cache ∧
      s'.promises = s.promises ∧ s'.handshakes = s.handshakes) := by
  have hlen : i < s.callers.length := (List.getElem?_eq_some_iff.mp hi).1
  refine ⟨Step.startCached s i c hi hc, ?_⟩
  intro hstep hne
  cases hstep with
  | startCached j c' hj hc' =>
    rw [hc] at hc'
    cases hc'
    by_cases hij : j = i
    · subst hij
      exact ⟨by simp [List.getElem?_set_self hlen], rfl, rfl, rfl⟩
    · exact absurd (by simpa [List.getElem?_set_ne hij] using hi) hne
  | startAwait j q hj hc' hq => simp [hc] at hc'
  | startConnect j hj hc' hq => simp [hc] at hc'
  | settleResolve q m hq => exact absurd hi hne
  | settleReject q e' hq => exact absurd hi hne
  | resumeOk j q m hj hq =>
    by_cases hij : j = i
    · subst hij; rw [hi] at hj; simp at hj
    · exact absurd (by simpa [List.getElem?_set_ne hij] using hi) hne
  | resumeErr j q e' hj hq =>
    by_cases hij : j = i
    · subst hij; rw [hi] at hj; simp at hj
    · exact absurd (by simpa [List.getElem?_set_ne hij] using hi) hne

/-- Claim C9 -- A caller resuming from a rejected handshake promise ends with
that error thrown and `cached.conn` is not modified: such a resumption step
exists, and any step that moves caller `i` out of its suspension finishes it
with exactly the promise's rejection error and leaves `cached.conn` as it
was before the call. -/
theorem connectToDatabase_reject_preserves_conn (s s' : Sys) (i p : Nat) (e : Err)
    (hi : s.callers[i]? = some (.suspended p))
    (hp : s.promises[p]? = some (.rejected e)) :
    Step s { s with callers := s.callers.set i (.done (.error e)) } ∧
    (Step s s' → s'.callers[i]? ≠ some (.suspended p) →
      s'.callers[i]? = some (.done (.error e)) ∧ s'.cache.conn = s.cache.conn) := by
  have hlen : i < s.callers.length := (List.getElem?_eq_some_iff.mp hi).1
  refine ⟨Step.resumeErr s i p e hi hp, ?_⟩
  intro hstep hne
  cases hstep with
  | startCached j c' hj hc' =>
    by_cases hij : j = i
    · subst hij; rw [hi] at hj; simp at hj
    · exact absurd (by simpa [List.getElem?_set_ne hij] using hi) hne
  | startAwait j q hj hc' hq =>
    by_cases hij : j = i
    · subst hij; rw [hi] at hj; simp at hj
    · exact absurd (by simpa [List.getElem?_set_ne hij] using hi) hne
  | startConnect j hj hc' hq =>
    by_cases hij : j = i
    · subst hij; rw [hi] at hj; simp at hj
    · exact absurd (by simpa [List.getElem?_set_ne hij] using hi) hne
  | settleResolve q m hq => exact absurd hi hne
  | settleReject q e' hq => exact absurd hi hne
  | resumeOk j q m hj hq =>
    by_cases hij : j = i
    · subst hij
      rw [hi] at hj
      cases hj
      rw [hp] at hq
      cases hq
    · exact absurd (by simpa [List.getElem?_set_ne hij] using hi) hne
  | resumeErr j q e' hj hq =>
    by_cases hij : j = i
    · subst hij
      rw [hi] at hj
      cases hj
      rw [hp] at hq
      cases hq
      exact ⟨by simp [List.getElem?_set_self hlen], rfl⟩
    · exact absurd (by simpa [List.getElem?_set_ne hij] using hi) hne

/-- Claim C7 -- Re-evaluating the module with a truthy URI while the global
object already holds a cache record reuses that record instead of creating a
fresh empty one; consequently no step from a system over that record can
perform a handshake while the record already has a connection or a pending
promise, and a connection established before re-evaluation is still served
to callers afterwards. -/
theorem moduleReinit_reuses_cache (uri : Option String) (cache : MongooseCache)
    (hu : jsTruthyString uri = true) :
    moduleInit uri (some cache) =
      .ok ({ MONGODB_URI := uri.getD "", cached := cache }, cache) ∧
    (∀ s s' : Sys, s.cache = cache → (cache.conn.isSome ∨ cache.promise.isSome) →
      Step s s' → s'.handshakes = s.handshakes) ∧
    (∀ (s : Sys) (i : Nat) (c : Mongoose), s.cache = cache → cache.conn = some c →
      s.callers[i]? = some .notStarted →
      Step s { s with callers := s.callers.set i (.done (.ok c)) }) := by
  refine ⟨by simp [moduleInit, hu], ?_, ?_⟩
  · intro s s' hsc hsome hstep
    cases hstep with
    | startCached j c hj hc => rfl
    | startAwait j q hj hc hq => rfl
    | startConnect j hj hc hq =>
      rw [← hsc, hc, hq] at hsome
      simp at hsome
    | settleResolve q m hq => rfl
    | settleReject q e hq => rfl
    | resumeOk j q m hj hq => rfl
    | resumeErr j q e hj hq => rfl
  · intro s i c hsc hconn hi
    exact Step.startCached s i c hi (by rw [hsc, hconn])

/-- Invariant of every reachable system state: the handshake counter equals
the number of promises ever created; a promise exists exactly when
`cached.promise` is set, and then it is the unique promise `0`;
`cached.conn` holds only the resolved value of the cached promise; every
suspended caller awaits the cached promise; and every successful caller got
the resolved value of the cached promise. -/
structure SysInv (s : Sys) : Prop where
  handshakes_eq : s.handshakes = s.promises.length
  promise_none : s.cache.promise = none → s.promises.length = 0
  promise_some : ∀ p : Nat, s.cache.promise = some p → p = 0 ∧ s.promises.length = 1
  conn_resolved : ∀ c : Mongoose, s.cache.conn = some c →
    ∃ p : Nat, s.cache.promise = some p ∧ s.promises[p]? = some (PromState.resolved c)
  susp_promise : ∀ (i p : Nat),
    s.callers[i]? = some (CallerState.suspended p) → s.cache.promise = some p
  ok_resolved : ∀ (i : Nat) (m : Mongoose),
    s.callers[i]? = some (CallerState.done (Except.ok m)) →
    ∃ p : Nat, s.cache.promise = some p ∧ s.promises[p]? = some (PromState.resolved m)

theorem sysInv_init (n : Nat) : SysInv (initSys n) := by
  refine ⟨rfl, fun _ => rfl, ?_, ?_, ?_, ?_⟩
  · intro p hp
    exact Option.noConfusion hp
  · intro c hc
    exact Option.noConfusion hc
  · intro i p h
    rw [show (initSys n).callers = List.replicate n .notStarted from rfl,
      List.getElem?_replicate] at h
    split at h <;> simp at h
  · intro i m h
    rw [show (initSys n).callers = List.replicate n .notStarted from rfl,
      List.getElem?_replicate] at h
    split at h <;> simp at h

theorem sysInv_step {s s' : Sys} (hinv : SysInv s) (hstep : Step s s') : SysInv s' := by
  cases hstep with
  | startCached j c hj hc =>
    refine ⟨hinv.handshakes_eq, hinv.promise_none, hinv.promise_some,
      hinv.conn_resolved, ?_, ?_⟩
    · intro i p h
      by_cases hij : j = i
      · subst hij
        rw [List.getElem?_set_self ((List.getElem?_eq_some_iff.mp hj).1)] at h
        simp at h
      · rw [List.getElem?_set_ne hij] at h
        exact hinv.susp_promise i p h
    · intro i m h
      by_cases hij : j = i
      · subst hij
        rw [List.getElem?_set_self ((List.getElem?_eq_some_iff.mp hj).1)] at h
        simp only [Option.some.injEq, CallerState.done.injEq, Except.ok.injEq] at h
        subst h
        exact hinv.conn_resolved c hc
      · rw [List.getElem?_set_ne hij] at h
        exact hinv.ok_resolved i m h
  | startAwait j q hj hc hq =>
    refine ⟨hinv.handshakes_eq, hinv.promise_none, hinv.promise_some,
      hinv.conn_resolved, ?_, ?_⟩
    · intro i p h
      by_cases hij : j = i
      · subst hij
        rw [List.getElem?_set_self ((List.getElem?_eq_some_iff.mp hj).1)] at h
        simp only [Option.some.injEq, CallerState.suspended.injEq] at h
        subst h
        exact hq
      · rw [List.getElem?_set_ne hij] at h
        exact hinv.susp_promise i p h
    · intro i m h
      by_cases hij : j = i
      · subst hij
        rw [List.getElem?_set_self ((List.getElem?_eq_some_iff.mp hj).1)] at h
        simp at h
      · rw [List.getElem?_set_ne hij] at h
        exact hinv.ok_resolved i m h
  | startConnect j hj hc hq =>
    have hl0 : s.promises.length = 0 := hinv.promise_none hq
    refine ⟨?_, ?_, ?_, ?_, ?_, ?_⟩
    · simp [hinv.handshakes_eq]
    · intro h
      exact Option.noConfusion h
    · intro p h
      have hp : s.promises.length = p := Option.some.inj h
      refine ⟨by omega, ?_⟩
      simp [hl0]
    · intro c h
      have h' : s.cache.conn = some c := h
      rw [hc] at h'
      exact Option.noConfusion h'
    · intro i p h
      by_cases hij : j = i
      · subst hij
        rw [List.getElem?_set_self ((List.getElem?_eq_some_iff.mp hj).1)] at h
        simp only [Option.some.injEq, CallerState.suspended.injEq] at h
        subst h
        rfl
      · rw [List.getElem?_set_ne hij] at h
        have hd := hinv.susp_promise i p h
        rw [hq] at hd
        exact Option.noConfusion hd
    · intro i m h
      by_cases hij : j = i
      · subst hij
        rw [List.getElem?_set_self ((List.getElem?_eq_some_iff.mp hj).1)] at h
        simp at h
      · rw [List.getElem?_set_ne hij] at h
        obtain ⟨p, hp1, _⟩ := hinv.ok_resolved i m h
        rw [hq] at hp1
        exact Option.noConfusion hp1
  | settleResolve q m hq =>
    refine ⟨?_, ?_, ?_, ?_, ?_, ?_⟩
    · simpa using hinv.handshakes_eq
    · intro h
      simpa using hinv.promise_none h
    · intro p h
      simpa using hinv.promise_some p h
    · intro c h
      obtain ⟨p, hp1, hp2⟩ := hinv.conn_resolved c h
      refine ⟨p, hp1, ?_⟩
      by_cases hqp : q = p
      · subst hqp
        rw [hq] at hp2
        simp at hp2
      · rw [List.getElem?_set_ne hqp]
        exact hp2
    · intro i p h
      exact hinv.susp_promise i p h
    · intro i m' h
      obtain ⟨p, hp1, hp2⟩ := hinv.ok_resolved i m' h
      refine ⟨p, hp1, ?_⟩
      by_cases hqp : q = p
      · subst hqp
        rw [hq] at hp2
        simp at hp2
      · rw [List.getElem?_set_ne hqp]
        exact hp2
  | settleReject q e hq =>
    refine ⟨?_, ?_, ?_, ?_, ?_, ?_⟩
    · simpa using hinv.handshakes_eq
    · intro h
      simpa using hinv.promise_none h
    · intro p h
      simpa using hinv.promise_some p h
    · intro c h
      obtain ⟨p, hp1, hp2⟩ := hinv.conn_resolved c h
      refine ⟨p, hp1, ?_⟩
      by_cases hqp : q = p
      · subst hqp
        rw [hq] at hp2
        simp at hp2
      · rw [List.getElem?_set_ne hqp]
        exact hp2
    · intro i p h
      exact hinv.susp_promise i p h
    · intro i m' h
      obtain ⟨p, hp1, hp2⟩ := hinv.ok_resolved i m' h
      refine ⟨p, hp1, ?_⟩
      by_cases hqp : q = p
      · subst hqp
        rw [hq] at hp2
        simp at hp2
      · rw [List.getElem?_set_ne hqp]
        exact hp2
  | resumeOk j q m hj hq =>
    refine ⟨hinv.handshakes_eq, hinv.promise_none, hinv.promise_some, ?_, ?_, ?_⟩
    · intro c h
      have h' : some m = some c := h
      have hcm := Option.some.inj h'
      subst hcm
      exact ⟨q, hinv.susp_promise j q hj, hq⟩
    · intro i p h
      by_cases hij : j = i
      · subst hij
        rw [List.getElem?_set_self ((List.getElem?_eq_some_iff.mp hj).1)] at h
        simp at h
      · rw [List.getElem?_set_ne hij] at h
        exact hinv.susp_promise i p h
    · intro i m' h
      by_cases hij : j = i
      · subst hij
        rw [List.getElem?_set_self ((List.getElem?_eq_some_iff.mp hj).1)] at h
        simp only [Option.some.injEq, CallerState.done.injEq, Except.ok.injEq] at h
        subst h
        exact ⟨q, hinv.susp_promise j q hj, hq⟩
      · rw [List.getElem?_set_ne hij] at h
        exact hinv.ok_resolved i m' h
  | resumeErr j q e hj hq =>
    refine ⟨hinv.handshakes_eq, hinv.promise_none, hinv.promise_some,
      hinv.conn_resolved, ?_, ?_⟩
    · intro i p h
      by_cases hij : j = i
      · subst hij
        rw [List.getElem?_set_self ((List.getElem?_eq_some_iff.mp hj).1)] at h
        simp at h
      · rw [List.getElem?_set_ne hij] at h
        exact hinv.susp_promise i p h
    · intro i m h
      by_cases hij : j = i
      · subst hij
        rw [List.getElem?_set_self ((List.getElem?_eq_some_iff.mp hj).1)] at h
        simp at h
      · rw [List.getElem?_set_ne hij] at h
        exact hinv.ok_resolved i m h

theorem reachable_inv {n : Nat} {s : Sys} (h : Reachable (initSys n) s) : SysInv s := by
  induction h with
  | refl => exact sysInv_init n
  | tail h1 h2 ih => exact sysInv_step ih h2

/-- Claim C1 -- From process start, under every interleaving of any number
of sequential or concurrent `connectToDatabase` callers, the handshake
primitive `mongoose.connect` is invoked at most once, and all callers whose
call succeeds receive the identical resolved handle instance. -/
theorem connectToDatabase_single_handshake (n : Nat) (s : Sys)
    (h : Reachable (initSys n) s) :
    s.handshakes ≤ 1 ∧
    ∀ (i j : Nat) (mi mj : Mongoose),
      s.callers[i]? = some (.done (.ok mi)) →
      s.callers[j]? = some (.done (.ok mj)) → mi = mj := by
  have hinv := reachable_inv h
  constructor
  · rw [hinv.handshakes_eq]
    cases hp : s.cache.promise with
    | none =>
      have h0 := hinv.promise_none hp
      omega
    | some p =>
      have h1 := (hinv.promise_some p hp).2
      omega
  · intro i j mi mj hi hj
    obtain ⟨p, hp1, hp2⟩ := hinv.ok_resolved i mi hi
    obtain ⟨q, hq1, hq2⟩ := hinv.ok_resolved j mj hj
    rw [hp1] at hq1
    have hpq := Option.some.inj hq1
    subst hpq
    rw [hp2] at hq2
    simp only [Option.some.injEq, PromState.resolved.injEq] at hq2
    exact hq2

/-- Claim C6 -- The cache record starts empty at module load; in every
reachable state the `conn` field holds only the resolved value of the cached
promise; and every step preserves a populated `conn` unchanged and never
clears a set `promise`. -/
theorem cache_record_invariant (n : Nat) (s s' : Sys)
    (h : Reachable (initSys n) s) :
    ((initSys n).cache.conn = none ∧ (initSys n).cache.promise = none) ∧
    (∀ c : Mongoose, s.cache.conn = some c →
      ∃ p : Nat, s.cache.promise = some p ∧ s.promises[p]? = some (.resolved c)) ∧
    (Step s s' →
      (∀ c : Mongoose, s.cache.conn = some c → s'.cache.conn = some c) ∧
      (∀ p : Nat, s.cache.promise = some p → s'.cache.promise = some p)) := by
  have hinv := reachable_inv h
  refine ⟨⟨rfl, rfl⟩, hinv.conn_resolved, ?_⟩
  intro hstep
  constructor
  · intro c hc
    cases hstep with
    | startCached j c' hj hc' => exact hc
    | startAwait j q hj hc' hq => exact hc
    | startConnect j hj hc' hq => exact hc
    | settleResolve q m hq => exact hc
    | settleReject q e hq => exact hc
    | resumeOk j q m hj hq =>
      obtain ⟨p, hp1, hp2⟩ := hinv.conn_resolved c hc
      have hq1 := hinv.susp_promise j q hj
      rw [hp1] at hq1
      have hpq := Option.some.inj hq1
      subst hpq
      rw [hp2] at hq
      simp only [Option.some.injEq, PromState.resolved.injEq] at hq
      show some m = some c
      rw [hq]
    | resumeErr j q e hj hq => exact hc
  · intro p hp
    cases hstep with
    | startCached j c' hj hc' => exact hp
    | startAwait j q hj hc' hq => exact hp
    | startConnect j hj hc' hq =>
      rw [hq] at hp
      exact Option.noConfusion hp
    | settleResolve q m hq => exact hp
    | settleReject q e hq => exact hp
    | resumeOk j q m hj hq => exact hp
    | resumeErr j q e hj hq => exact hp

/-- Claim C2 -- Once the handshake promise has rejected, every step leaves
the failed promise cached (no retry, no reset of the pending slot, no new
handshake), every caller awaiting it either keeps waiting or fails with
exactly that rejection, and every later call re-awaits the same failed
promise (or has not run yet). -/
theorem connectToDatabase_failure_is_permanent (n : Nat) (s s' : Sys) (p : Nat) (e : Err)
    (h : Reachable (initSys n) s)
    (hp : s.cache.promise = some p)
    (hr : s.promises[p]? = some (.rejected e))
    (hstep : Step s s') :
    (s'.cache.promise = some p ∧ s'.promises[p]? = some (.rejected e) ∧
      s'.handshakes = s.handshakes) ∧
    (∀ i : Nat, s.callers[i]? = some (.suspended p) →
      s'.callers[i]? = some (.done (.error e)) ∨
      s'.callers[i]? = some (.suspended p)) ∧
    (∀ i : Nat, s.callers[i]? = some .notStarted →
      s'.callers[i]? = some (.suspended p) ∨
      s'.callers[i]? = some .notStarted) := by
  have hinv := reachable_inv h
  cases hstep with
  | startCached j c hj hc =>
    obtain ⟨p', hp1, hp2⟩ := hinv.conn_resolved c hc
    rw [hp] at hp1
    have hpp := Option.some.inj hp1
    subst hpp
    rw [hr] at hp2
    simp at hp2
  | startAwait j q hj hc hq =>
    rw [hp] at hq
    have hqp := Option.some.inj hq
    subst hqp
    refine ⟨⟨hp, hr, rfl⟩, ?_, ?_⟩
    · intro i hi
      by_cases hij : j = i
      · subst hij
        rw [hj] at hi
        simp at hi
      · right
        rw [List.getElem?_set_ne hij]
        exact hi
    · intro i hi
      by_cases hij : j = i
      · subst hij
        left
        rw [List.getElem?_set_self ((List.getElem?_eq_some_iff.mp hj).1)]
      · right
        rw [List.getElem?_set_ne hij]
        exact hi
  | startConnect j hj hc hq =>
    rw [hq] at hp
    exact Option.noConfusion hp
  | settleResolve q m hq =>
    have hqp : q ≠ p := by
      intro hqp
      subst hqp
      rw [hr] at hq
      simp at hq
    refine ⟨⟨hp, ?_, rfl⟩, ?_, ?_⟩
    · rw [List.getElem?_set_ne hqp]
      exact hr
    · intro i hi
      right
      exact hi
    · intro i hi
      right
      exact hi
  | settleReject q e' hq =>
    have hqp : q ≠ p := by
      intro hqp
      subst hqp
      rw [hr] at hq
      simp at hq
    refine ⟨⟨hp, ?_, rfl⟩, ?_, ?_⟩
    · rw [List.getElem?_set_ne hqp]
      exact hr
    · intro i hi
      right
      exact hi
    · intro i hi
      right
      exact hi
  | resumeOk j q m hj hq =>
    have hjq := hinv.susp_promise j q hj
    rw [hp] at hjq
    have hpq := Option.some.inj hjq
    subst hpq
    rw [hr] at hq
    simp at hq
  | resumeErr j q e' hj hq =>
    have hjq := hinv.susp_promise j q hj
    rw [hp] at hjq
    have hpq := Option.some.inj hjq
    subst hpq
    rw [hr] at hq
    simp only [Option.some.injEq, PromState.rejected.injEq] at hq
    subst hq
    refine ⟨⟨hp, hr, rfl⟩, ?_, ?_⟩
    · intro i hi
      by_cases hij : j = i
      · subst hij
        left
        rw [List.getElem?_set_self ((List.getElem?_eq_some_iff.mp hj).1)]
      · right
        rw [List.getElem?_set_ne hij]
        exact hi
    · intro i hi
      by_cases hij : j = i
      · subst hij
        rw [hj] at hi
        simp at hi
      · right
        rw [List.getElem?_set_ne hij]
        exact hi

/-- A concrete `Mongoose` instance used by the concrete executions below. -/
def mW : Mongoose := { id := 0, connection := { id := 0 } }

/-- State after one handshake resolved with `mW` and both of two callers
returned it: reached by start-connect, resolve, resume, then a cached hit. -/
def sysOkW : Sys :=
  { cache := { conn := some mW, promise := some 0 },
    promises := [.resolved mW], handshakes := 1,
    callers := [.done (.ok mW), .done (.ok mW)] }

/-- State after one handshake resolved with `mW` and the first of two
callers returned it; the second has not called yet. -/
def sysConnW : Sys :=
  { cache := { conn := some mW, promise := some 0 },
    promises := [.resolved mW], handshakes := 1,
    callers := [.done (.ok mW), .notStarted] }

/-- State in which the only handshake promise has rejected while its single
initiating caller is still suspended on it and a second caller is yet to
run. -/
def sysRejW : Sys :=
  { cache := { conn := none, promise := some 0 },
    promises := [.rejected "connection refused"], handshakes := 1,
    callers := [.suspended 0, .notStarted] }

/-- `sysRejW` after its suspended caller resumed and failed. -/
def sysRejW' : Sys :=
  { cache := { conn := none, promise := some 0 },
    promises := [.rejected "connection refused"], handshakes := 1,
    callers := [.done (.error "connection refused"), .notStarted] }

/-- A single fresh caller in front of an already-populated cache. -/
def sysCachedW : Sys :=
  { cache := { conn := some mW, promise := some 0 },
    promises := [.resolved mW], handshakes := 1,
    callers := [.notStarted] }

/-- A single caller suspended on an already-rejected promise. -/
def sysSuspRejW : Sys :=
  { cache := { conn := none, promise := some 0 },
    promises := [.rejected "connection refused"], handshakes := 1,
    callers := [.suspended 0] }

/-- Witness for C1 on a concrete four-step execution with two callers: the
handshake ran once and the universally quantified agreement holds in the
final state. -/
theorem connectToDatabase_single_handshake_witness :
    sysOkW.handshakes ≤ 1 ∧
    ∀ (i j : Nat) (mi mj : Mongoose),
      sysOkW.callers[i]? = some (.done (.ok mi)) →
      sysOkW.callers[j]? = some (.done (.ok mj)) → mi = mj :=
  connectToDatabase_single_handshake 2 sysOkW
    (Reachable.tail (Reachable.tail (Reachable.tail (Reachable.tail Reachable.refl
        (Step.startConnect (initSys 2) 0 rfl rfl rfl))
      (Step.settleResolve _ 0 mW rfl))
      (Step.resumeOk _ 0 0 mW rfl rfl))
      (Step.startCached _ 1 mW rfl rfl))

/-- Witness for C6 on a concrete three-step execution reaching a populated
cache, followed by the cached-hit step to `sysOkW`. -/
theorem cache_record_invariant_witness :
    ((initSys 2).cache.conn = none ∧ (initSys 2).cache.promise = none) ∧
    (∀ c : Mongoose, sysConnW.cache.conn = some c →
      ∃ p : Nat, sysConnW.cache.promise = some p ∧
        sysConnW.promises[p]? = some (.resolved c)) ∧
    (Step sysConnW sysOkW →
      (∀ c : Mongoose, sysConnW.cache.conn = some c → sysOkW.cache.conn = some c) ∧
      (∀ p : Nat, sysConnW.cache.promise = some p → sysOkW.cache.promise = some p)) :=
  cache_record_invariant 2 sysConnW sysOkW
    (Reachable.tail (Reachable.tail (Reachable.tail Reachable.refl
        (Step.startConnect (initSys 2) 0 rfl rfl rfl))
      (Step.settleResolve _ 0 mW rfl))
      (Step.resumeOk _ 0 0 mW rfl rfl))

/-- Witness for C2 on a concrete execution whose handshake rejected, at the
resumption step that fails the suspended caller. -/
theorem connectToDatabase_failure_is_permanent_witness :
    (sysRejW'.cache.promise = some 0 ∧
      sysRejW'.promises[0]? = some (.rejected "connection refused") ∧
      sysRejW'.handshakes = sysRejW.handshakes) ∧
    (∀ i : Nat, sysRejW.callers[i]? = some (.suspended 0) →
      sysRejW'.callers[i]? = some (.done (.error "connection refused")) ∨
      sysRejW'.callers[i]? = some (.suspended 0)) ∧
    (∀ i : Nat, sysRejW.callers[i]? = some .notStarted →
      sysRejW'.callers[i]? = some (.suspended 0) ∨
      sysRejW'.callers[i]? = some .notStarted) :=
  connectToDatabase_failure_is_permanent 2 sysRejW sysRejW' 0 "connection refused"
    (Reachable.tail (Reachable.tail Reachable.refl
        (Step.startConnect (initSys 2) 0 rfl rfl rfl))
      (Step.settleReject _ 0 "connection refused" rfl))
    rfl rfl
    (Step.resumeErr sysRejW 0 0 "connection refused" rfl rfl)

/-- Witness for C4: in front of a concrete populated cache the cached-hit
step exists and returns the cached handle. -/
theorem connectToDatabase_cached_no_io_witness :
    Step sysCachedW
      { sysCachedW with callers := sysCachedW.callers.set 0 (.done (.ok mW)) } :=
  (connectToDatabase_cached_no_io sysCachedW sysCachedW 0 mW rfl rfl).1

/-- Witness for C9: the concrete resumption step from a rejected promise
exists; it throws the rejection and leaves `conn` untouched. -/
theorem connectToDatabase_reject_preserves_conn_witness :
    Step sysSuspRejW
      { sysSuspRejW with
          callers := sysSuspRejW.callers.set 0 (.done (.error "connection refused")) } :=
  (connectToDatabase_reject_preserves_conn sysSuspRejW sysSuspRejW 0 0
    "connection refused" rfl rfl).1

/-- Witness for C7: re-evaluating the module with a concrete truthy URI and
a concrete populated global cache record returns that very record. -/
theorem moduleReinit_reuses_cache_witness :
    moduleInit (some "mongodb://localhost:27017") (some sysCachedW.cache) =
      .ok ({ MONGODB_URI := "mongodb://localhost:27017",
              cached := sysCachedW.cache }, sysCachedW.cache) :=
  (moduleReinit_reuses_cache (some "mongodb://localhost:27017") sysCachedW.cache
    (by decide)).1
